import Mathlib

/-!
Verification of the analytical core of the CIS5500 Texas Energy service.

The analytical computations of the repository are expressed as SQL executed
per request in `fastapi-server/main.py`.  This file gives a shallow embedding
of those computations over exact rationals (`ℚ`), with SQL `NULL` modelled by
`Option`:

* `get_forecast_metrics` (lines 315-362): the per-region accuracy statistics
  `n`, `mse`, `mae`, `mape_pct`, `r2`, including the NULL behaviour of
  `AVG`, `SUM`, `CASE` and `NULLIF`.
* the `ForecastMetrics` pydantic response model (lines 82-88): validation of
  the rows produced by the query.
* `get_daily_load_outliers` (lines 666-720): monthly mean / `STDDEV_SAMP`
  and the `±k·σ` outlier classification.
* `get_extreme_heat_load_analysis` (lines 800-856): `percentile_cont`
  cutoffs and the median peak load on extreme-heat days.
* the query-parameter range checks of the two percentile endpoints.
* the streak detector, which the repository only reads from a pre-built
  `heatwave_streaks` table, is modelled from the specification.
-/

namespace TexasEnergy

/-! ### SQL NULL primitives

SQL aggregates `AVG` and `SUM` skip NULL inputs and return NULL when every
input is NULL; arithmetic on NULL yields NULL; `NULLIF(x, v)` turns `v`
into NULL. -/

/-- SQL subtraction: NULL-propagating difference. -/
def sqlSub : Option ℚ → Option ℚ → Option ℚ
  | some a, some b => some (a - b)
  | _, _ => none

/-- SQL `AVG`: the mean of the non-NULL entries, NULL when there are none. -/
def avgOpt (l : List (Option ℚ)) : Option ℚ :=
  match l.filterMap id with
  | [] => none
  | x :: xs => some ((x :: xs).sum / (x :: xs).length)

/-- SQL `SUM`: the sum of the non-NULL entries, NULL when there are none. -/
def sumOpt (l : List (Option ℚ)) : Option ℚ :=
  match l.filterMap id with
  | [] => none
  | x :: xs => some (x :: xs).sum

/-- SQL `NULLIF(x, v)`. -/
def nullif (x : Option ℚ) (v : ℚ) : Option ℚ :=
  x.bind fun y => if y = v then none else some y

/-! ### Forecast accuracy metrics (`get_forecast_metrics`, main.py 315-362)

A row of the `pairs` CTE for one region is a pair
`(y, yhat) : Option ℚ × Option ℚ` (`actual`, `expected`); either side may be
NULL, as the comparison table is built from a full outer join of actual and
forecast series. -/

/-- One term of `AVG( (p.y - p.yhat)^2 )`: NULL when either side is NULL. -/
def sqErrTerm (p : Option ℚ × Option ℚ) : Option ℚ :=
  (sqlSub p.1 p.2).map fun d => d ^ 2

/-- One term of `AVG( ABS(p.y - p.yhat) )`: NULL when either side is NULL. -/
def absErrTerm (p : Option ℚ × Option ℚ) : Option ℚ :=
  (sqlSub p.1 p.2).map fun d => |d|

/-- One term of
`AVG(CASE WHEN p.y = 0 THEN NULL ELSE ABS(p.y - p.yhat) / ABS(p.y) END)`:
NULL when `y` is NULL (the ELSE expression is then NULL), when `y = 0`
(explicit NULL), and when `yhat` is NULL (NULL arithmetic). -/
def mapeTerm (p : Option ℚ × Option ℚ) : Option ℚ :=
  match p with
  | (some y, some yhat) => if y = 0 then none else some (|y - yhat| / |y|)
  | _ => none

/-- `AVG(y)` of the `means` CTE: the mean of the non-NULL actuals. -/
def yBar (pairs : List (Option ℚ × Option ℚ)) : Option ℚ :=
  avgOpt (pairs.map Prod.fst)

/-- One term of `SUM( (p.y - m.y_bar)^2 )`: NULL exactly when `y` is NULL
(or the group mean itself is NULL). -/
def ssTotTerm (ybar : Option ℚ) (p : Option ℚ × Option ℚ) : Option ℚ :=
  (sqlSub p.1 ybar).map fun d => d ^ 2

/-- `1.0 - (SUM((y-yhat)^2) / NULLIF(SUM((y-y_bar)^2), 0))`:
NULL when either aggregate is NULL or the total sum of squares is zero. -/
def r2Calc (pairs : List (Option ℚ × Option ℚ)) : Option ℚ :=
  match sumOpt (pairs.map sqErrTerm), nullif (sumOpt (pairs.map (ssTotTerm (yBar pairs)))) 0 with
  | some a, some b => some (1 - a / b)
  | _, _ => none

/-- One result row of the metrics query, before response validation. -/
structure MetricsRow where
  n : ℕ
  mse : Option ℚ
  mae : Option ℚ
  mape_pct : Option ℚ
  r2 : Option ℚ
deriving DecidableEq

/-- The grouped SELECT of `get_forecast_metrics` for one region's pairs:
`COUNT(*)` with the four NULL-skipping aggregates. -/
def computeMetrics (pairs : List (Option ℚ × Option ℚ)) : MetricsRow where
  n := pairs.length
  mse := avgOpt (pairs.map sqErrTerm)
  mae := avgOpt (pairs.map absErrTerm)
  mape_pct := (avgOpt (pairs.map mapeTerm)).map fun m => 100 * m
  r2 := r2Calc pairs

/-- A row of the `pairs` CTE with its region tag. -/
structure PairRow where
  region : String
  y : Option ℚ
  yhat : Option ℚ
deriving DecidableEq

/-- The pairs belonging to one region group. -/
def pairsOf (rows : List PairRow) (g : String) : List (Option ℚ × Option ℚ) :=
  (rows.filter fun r => r.region == g).map fun r => (r.y, r.yhat)

/-- The region groups of the query (`GROUP BY p.region`): the distinct
region tags occurring in the input. -/
def regionsOf (rows : List PairRow) : List String :=
  (rows.map PairRow.region).dedup

/-- The full grouped query: one `MetricsRow` per region present in the input. -/
def forecastQuery (rows : List PairRow) : List (String × MetricsRow) :=
  (regionsOf rows).map fun g => (g, computeMetrics (pairsOf rows g))

/-! ### The `ForecastMetrics` response model (main.py 82-88)

`mse`, `mae`, `mape_pct` are required floats, and `r2` is a required float
with `ge=-1, le=1`; a row with a NULL statistic or `r2` outside `[-1, 1]`
fails response validation, in which case the request errors out and no data
is returned. -/

/-- A row that passed response validation: every statistic present. -/
structure ForecastMetricsOut where
  n : ℕ
  mse : ℚ
  mae : ℚ
  mape_pct : ℚ
  r2 : ℚ
deriving DecidableEq

/-- Field validation of one row against the `ForecastMetrics` model. -/
def validateMetricsRow (r : MetricsRow) : Option ForecastMetricsOut :=
  match r.mse, r.mae, r.mape_pct, r.r2 with
  | some a, some b, some c, some d =>
      if -1 ≤ d ∧ d ≤ 1 then some ⟨r.n, a, b, c, d⟩ else none
  | _, _, _, _ => none

/-- Response validation: all rows must validate, otherwise the whole
response fails (FastAPI raises instead of returning data). -/
def validateResponse : List MetricsRow → Option (List ForecastMetricsOut)
  | [] => some []
  | r :: rs =>
    match validateMetricsRow r, validateResponse rs with
    | some v, some vs => some (v :: vs)
    | _, _ => none

/-- The `/forecast/metrics` endpoint: run the grouped query, then validate
the rows against the response model. -/
def forecastEndpoint (rows : List PairRow) : Option (List ForecastMetricsOut) :=
  validateResponse ((forecastQuery rows).map Prod.snd)

/-! ### Daily load outliers (`get_daily_load_outliers`, main.py 666-720)

Per month the query computes `mu = AVG(daily_avg_mw)` and
`sigma = STDDEV_SAMP(daily_avg_mw)`, then classifies each day by the CASE
expression `value > mu + k*sigma → high`, `value < mu - k*sigma → low`,
`ELSE NULL`.  `STDDEV_SAMP` is NULL when the month has fewer than two days;
a comparison against NULL is not true, so both WHEN branches are skipped and
the day is classified NULL (`none`). -/

/-- Arithmetic mean of a list of rationals (`AVG` over a non-empty group). -/
def mean (l : List ℚ) : ℚ := l.sum / l.length

/-- Sum of squared deviations from the mean, the numerator of the sample
variance. -/
def devSq (l : List ℚ) : ℚ := (l.map fun x => (x - mean l) ^ 2).sum

/-- The square of `STDDEV_SAMP`: the sample variance with Bessel's
correction (denominator `n - 1`), NULL when `n < 2`.  `STDDEV_SAMP` itself
is its square root; the classification below is proved equivalent to the
square-root form in the outlier theorems. -/
def stddevSampSq (l : List ℚ) : Option ℚ :=
  if 2 ≤ l.length then some (devSq l / ((l.length : ℚ) - 1)) else none

/-- Outlier classification of one day. -/
inductive OutlierGroup where
  | high
  | low
  | none
deriving DecidableEq

/-- The CASE classification of one value against its month's statistics,
with the comparisons `value > mu + k*sigma` and `value < mu - k*sigma`
expressed square-free over `ℚ` (equivalence with the literal square-root
comparisons `sqlHighCond` / `sqlLowCond` is proved below, for the
nonnegative `k` the endpoint admits).  NULL `sigma` skips both branches. -/
def labelValue (l : List ℚ) (k v : ℚ) : OutlierGroup :=
  match stddevSampSq l with
  | Option.none => OutlierGroup.none
  | Option.some s2 =>
    if mean l < v ∧ k ^ 2 * s2 < (v - mean l) ^ 2 then OutlierGroup.high
    else if v < mean l ∧ k ^ 2 * s2 < (v - mean l) ^ 2 then OutlierGroup.low
    else OutlierGroup.none

/-- The literal SQL condition `dl.daily_avg_mw > ms.mu + k*ms.sigma`, with
`sigma = STDDEV_SAMP = √(devSq/(n-1))`, read over the reals. -/
def sqlHighCond (l : List ℚ) (k v : ℚ) : Prop :=
  (mean l : ℝ) + (k : ℝ) * Real.sqrt ((devSq l / ((l.length : ℚ) - 1) : ℚ) : ℝ) < (v : ℝ)

/-- The literal SQL condition `dl.daily_avg_mw < ms.mu - k*ms.sigma`. -/
def sqlLowCond (l : List ℚ) (k v : ℚ) : Prop :=
  (v : ℝ) < (mean l : ℝ) - (k : ℝ) * Real.sqrt ((devSq l / ((l.length : ℚ) - 1) : ℚ) : ℝ)

/-- One daily aggregate row: the month key produced by
`date_trunc('month', day_utc)`, the day, and the daily average load. -/
structure DayRow where
  month : ℤ
  day : ℤ
  value : ℚ
deriving DecidableEq

/-- The daily values of one month group (`GROUP BY date_trunc('month', ...)`). -/
def monthValues (rows : List DayRow) (m : ℤ) : List ℚ :=
  (rows.filter fun r => r.month == m).map DayRow.value

/-- The outlier classification the query assigns to one day: its value
against the statistics of its own month group. -/
def labelRow (rows : List DayRow) (k : ℚ) (r : DayRow) : OutlierGroup :=
  labelValue (monthValues rows r.month) k r.value

/-! ### Percentile cutoffs (`get_extreme_heat_load_analysis`, main.py 800-856)

`percentile_cont(f) WITHIN GROUP (ORDER BY x)` sorts the group's values and
interpolates linearly between the order statistics at the fractional rank
`f * (n - 1)`: with `lo = floor(rank)` and `hi = ceil(rank)` the result is
`v[lo]` when the rank is integral and
`v[lo] + (rank - lo) * (v[hi] - v[lo])` otherwise. -/

/-- Floor of a nonnegative rational as a natural number. -/
def ratFloorNat (q : ℚ) : ℕ := q.num.natAbs / q.den

/-- Ceiling of a nonnegative rational as a natural number. -/
def ratCeilNat (q : ℚ) : ℕ :=
  if q.den = 1 then ratFloorNat q else ratFloorNat q + 1

/-- The PostgreSQL `percentile_cont(f) WITHIN GROUP (ORDER BY x)` aggregate
over the multiset of group values `l`, for a fraction `f ∈ [0, 1]`. -/
def percentileCont (f : ℚ) (l : List ℚ) : ℚ :=
  let v := List.insertionSort (· ≤ ·) l
  let r : ℚ := f * ((v.length : ℚ) - 1)
  let lo := ratFloorNat r
  let hi := ratCeilNat r
  if lo = hi then v.getD lo 0
  else v.getD lo 0 + (r - (lo : ℚ)) * (v.getD hi 0 - v.getD lo 0)

/-- One zone-day of the extreme-heat analysis: the day, its maximum
temperature (`weather_zone_daily.temp_max_f`) and its peak load
(`daily_peak_load.daily_peak_mw`). -/
structure ZoneDay where
  day : ℤ
  tempMaxF : ℚ
  peakLoadMw : ℚ
deriving DecidableEq

/-- The `hot_cutoff` CTE for one zone: `percentile_cont(p/100)` of the daily
maximum temperatures (the endpoint passes `percentile_threshold / 100.0`). -/
def hotCutoff (rows : List ZoneDay) (p : ℚ) : ℚ :=
  percentileCont (p / 100) (rows.map ZoneDay.tempMaxF)

/-- The qualifying days of one zone:
`WHERE wzd.temp_max_f >= hc.p_threshold_temp_f` (inclusive). -/
def extremeDays (rows : List ZoneDay) (p : ℚ) : List ZoneDay :=
  rows.filter fun r => hotCutoff rows p ≤ r.tempMaxF

/-- `percentile_cont(0.5) WITHIN GROUP (ORDER BY dpl.daily_peak_mw)` over
the qualifying days: the median peak load during extreme heat. -/
def medianPeakLoad (rows : List ZoneDay) (p : ℚ) : ℚ :=
  percentileCont (1 / 2) ((extremeDays rows p).map ZoneDay.peakLoadMw)

/-! ### Percentile parameter validation (main.py 502-508 and 754-758)

`get_peak_load_extreme_heat` declares `threshold: float = Query(99, ge=0,
le=100)`; `get_extreme_heat_load_analysis` declares `percentile_threshold:
float = Query(99.0, ge=50, le=100)`.  A request whose parameter violates the
declared bounds is rejected by FastAPI's validation before the handler
runs. -/

/-- Acceptance of the `threshold` parameter of `/load/peak-load-extreme-heat`. -/
def peakLoadThresholdAccepted (p : ℚ) : Bool :=
  decide (0 ≤ p) && decide (p ≤ 100)

/-- Acceptance of the `percentile_threshold` parameter of
`/load/extreme-heat-analysis`. -/
def extremeHeatPercentileAccepted (p : ℚ) : Bool :=
  decide (50 ≤ p) && decide (p ≤ 100)

/-! ### Streak detection

The repository's `/weather/heatwaves` endpoint only reads a pre-built
`heatwave_streaks` table (main.py 376-433); the detector that fills it is
not part of the source tree. -/

/-- An emitted streak: first day, last day, length in days and the peak
value observed inside the run. -/
structure Streak where
  startDay : ℤ
  endDay : ℤ
  days : ℕ
  peak : ℚ
deriving DecidableEq

/-- The state of an open run during the scan. -/
structure RunState where
  startDay : ℤ
  lastDay : ℤ
  len : ℕ
  peak : ℚ
deriving DecidableEq

/-- Closing a run: emit it only when it reached the minimum length. -/
def closeRun (minLen : ℕ) (st : RunState) : List Streak :=
  if minLen ≤ st.len then [⟨st.startDay, st.lastDay, st.len, st.peak⟩] else []

/-- Closing the possibly-absent open run. -/
def closeOpt (minLen : ℕ) : Option RunState → List Streak
  | Option.none => []
  | Option.some st => closeRun minLen st

/-- Modelled from the spec: the scan of the streak detector (§4.2), which
the repository only consumes through the pre-built `heatwave_streaks`
table.  Days arrive in ascending order as `(day, value)`; a satisfying day
extends the open run only when it is exactly the successor of the run's
last day, otherwise the run closes and a fresh run starts; a
non-satisfying day closes the open run; the end of input closes any still
open run. -/
def scanStreaks (pred : ℚ → Bool) (minLen : ℕ) :
    Option RunState → List (ℤ × ℚ) → List Streak
  | cur, [] => closeOpt minLen cur
  | cur, (d, v) :: rest =>
    if pred v then
      match cur with
      | Option.some st =>
        if d = st.lastDay + 1 then
          scanStreaks pred minLen (some ⟨st.startDay, d, st.len + 1, max st.peak v⟩) rest
        else
          closeRun minLen st ++ scanStreaks pred minLen (some ⟨d, d, 1, v⟩) rest
      | Option.none => scanStreaks pred minLen (some ⟨d, d, 1, v⟩) rest
    else
      closeOpt minLen cur ++ scanStreaks pred minLen Option.none rest

/-- Modelled from the spec: `detect_streaks(daily_values, predicate,
min_length)` (§4.2) — scan the date-ordered daily values with no open run. -/
def detectStreaks (rows : List (ℤ × ℚ)) (pred : ℚ → Bool) (minLen : ℕ) : List Streak :=
  scanStreaks pred minLen Option.none rows

/-- The both-present projection of a `(actual, expected)` pair: `some`
exactly when neither side is NULL. -/
def presentPair (p : Option ℚ × Option ℚ) : Option (ℚ × ℚ) :=
  match p with
  | (some y, some z) => some (y, z)
  | _ => Option.none

/-! ### Supporting lemmas -/

lemma filterMap_id_map {α : Type} (f : α → Option ℚ) (l : List α) :
    (l.map f).filterMap id = l.filterMap f := by
  rw [List.filterMap_map]
  rfl

lemma avgOpt_of_filterMap_nil {l : List (Option ℚ)} (h : l.filterMap id = []) :
    avgOpt l = Option.none := by
  unfold avgOpt
  rw [h]

lemma avgOpt_of_filterMap_ne_nil {l : List (Option ℚ)} (h : l.filterMap id ≠ []) :
    avgOpt l = some ((l.filterMap id).sum / ((l.filterMap id).length : ℚ)) := by
  rcases hh : l.filterMap id with _ | ⟨x, xs⟩
  · exact absurd hh h
  · unfold avgOpt
    rw [hh]

lemma sumOpt_of_filterMap_nil {l : List (Option ℚ)} (h : l.filterMap id = []) :
    sumOpt l = Option.none := by
  unfold sumOpt
  rw [h]

lemma sumOpt_of_filterMap_ne_nil {l : List (Option ℚ)} (h : l.filterMap id ≠ []) :
    sumOpt l = some (l.filterMap id).sum := by
  rcases hh : l.filterMap id with _ | ⟨x, xs⟩
  · exact absurd hh h
  · unfold sumOpt
    rw [hh]

lemma filterMap_sqErr (pairs : List (Option ℚ × Option ℚ)) :
    pairs.filterMap sqErrTerm =
      (pairs.filterMap presentPair).map fun q => (q.1 - q.2) ^ 2 := by
  induction pairs with
  | nil => rfl
  | cons p t ih =>
    rcases p with ⟨y, z⟩
    cases y <;> cases z <;>
      simp [sqErrTerm, sqlSub, presentPair, List.filterMap_cons, ih]

lemma filterMap_absErr (pairs : List (Option ℚ × Option ℚ)) :
    pairs.filterMap absErrTerm =
      (pairs.filterMap presentPair).map fun q => |q.1 - q.2| := by
  induction pairs with
  | nil => rfl
  | cons p t ih =>
    rcases p with ⟨y, z⟩
    cases y <;> cases z <;>
      simp [absErrTerm, sqlSub, presentPair, List.filterMap_cons, ih]

lemma filterMap_mape (pairs : List (Option ℚ × Option ℚ)) :
    pairs.filterMap mapeTerm =
      ((pairs.filterMap presentPair).filter fun q => decide (q.1 ≠ 0)).map
        fun q => |q.1 - q.2| / |q.1| := by
  induction pairs with
  | nil => rfl
  | cons p t ih =>
    rcases p with ⟨y, z⟩
    cases y with
    | none => simpa [mapeTerm, presentPair, List.filterMap_cons] using ih
    | some a =>
      cases z with
      | none => simpa [mapeTerm, presentPair, List.filterMap_cons] using ih
      | some b =>
        by_cases ha : a = 0
        · simpa [mapeTerm, presentPair, List.filterMap_cons, List.filter_cons, ha] using ih
        · simpa [mapeTerm, presentPair, List.filterMap_cons, List.filter_cons, ha] using ih

lemma filterMap_ssTot (ybar : ℚ) (pairs : List (Option ℚ × Option ℚ)) :
    pairs.filterMap (ssTotTerm (some ybar)) =
      (pairs.filterMap Prod.fst).map fun y => (y - ybar) ^ 2 := by
  induction pairs with
  | nil => rfl
  | cons p t ih =>
    rcases p with ⟨y, z⟩
    cases y <;> simp [ssTotTerm, sqlSub, List.filterMap_cons, ih]

lemma filterMap_ssTot_none (pairs : List (Option ℚ × Option ℚ)) :
    pairs.filterMap (ssTotTerm Option.none) = [] := by
  induction pairs with
  | nil => rfl
  | cons p t ih =>
    rcases p with ⟨y, z⟩
    cases y <;> simp [ssTotTerm, sqlSub, List.filterMap_cons, ih]

lemma filterMap_presentPair_map_some (ps : List (ℚ × ℚ)) :
    (ps.map fun q => ((some q.1 : Option ℚ), (some q.2 : Option ℚ))).filterMap presentPair =
      ps := by
  induction ps with
  | nil => rfl
  | cons p t ih => simp [presentPair, List.filterMap_cons, ih]

lemma filterMap_fst_map_some (ps : List (ℚ × ℚ)) :
    (ps.map fun q => ((some q.1 : Option ℚ), (some q.2 : Option ℚ))).filterMap Prod.fst =
      ps.map Prod.fst := by
  induction ps with
  | nil => rfl
  | cons p t ih => simp [List.filterMap_cons, ih]

lemma sum_all_eq {l : List ℚ} {c : ℚ} (h : ∀ x ∈ l, x = c) :
    l.sum = c * (l.length : ℚ) := by
  induction l with
  | nil => simp
  | cons a t ih =>
    simp only [List.sum_cons, List.length_cons]
    rw [h a (by simp), ih fun x hx => h x (by simp [hx])]
    push_cast
    ring

lemma devSq_nonneg (l : List ℚ) : 0 ≤ devSq l := by
  refine List.sum_nonneg fun x hx => ?_
  obtain ⟨y, _, rfl⟩ := List.mem_map.mp hx
  positivity

lemma sum_sq_eq_zero {c : ℚ} :
    ∀ {l : List ℚ}, (l.map fun x => (x - c) ^ 2).sum = 0 → ∀ x ∈ l, x = c := by
  intro l
  induction l with
  | nil => intro _ x hx; cases hx
  | cons a t ih =>
    intro h x hx
    simp only [List.map_cons, List.sum_cons] at h
    have ht0 : 0 ≤ (t.map fun x => (x - c) ^ 2).sum := by
      refine List.sum_nonneg fun y hy => ?_
      obtain ⟨z, _, rfl⟩ := List.mem_map.mp hy
      positivity
    rcases List.mem_cons.mp hx with rfl | hx'
    · have ha : (x - c) ^ 2 = 0 := by nlinarith [sq_nonneg (x - c)]
      have hz : x - c = 0 := (pow_eq_zero_iff (by norm_num : (2:ℕ) ≠ 0)).mp ha
      linarith
    · have ht : (t.map fun x => (x - c) ^ 2).sum = 0 := by nlinarith [sq_nonneg (a - c)]
      exact ih ht x hx'

lemma mem_monthValues {rows : List DayRow} {r : DayRow} (hr : r ∈ rows) :
    r.value ∈ monthValues rows r.month := by
  unfold monthValues
  exact List.mem_map.mpr ⟨r, List.mem_filter.mpr ⟨hr, by simp⟩, rfl⟩

lemma labelValue_some {l : List ℚ} {k v s2 : ℚ} (h : stddevSampSq l = some s2) :
    labelValue l k v =
      if mean l < v ∧ k ^ 2 * s2 < (v - mean l) ^ 2 then OutlierGroup.high
      else if v < mean l ∧ k ^ 2 * s2 < (v - mean l) ^ 2 then OutlierGroup.low
      else OutlierGroup.none := by
  simp [labelValue, h]

lemma highCond_iff {mu s2 k v : ℚ} (hs2 : 0 ≤ s2) (hk : 0 ≤ k) :
    (mu < v ∧ k ^ 2 * s2 < (v - mu) ^ 2) ↔
      (mu : ℝ) + (k : ℝ) * Real.sqrt ((s2 : ℝ)) < (v : ℝ) := by
  have hS0 : (0:ℝ) ≤ Real.sqrt (s2 : ℝ) := Real.sqrt_nonneg _
  have hSsq : Real.sqrt ((s2 : ℝ)) ^ 2 = (s2 : ℝ) := Real.sq_sqrt (by exact_mod_cast hs2)
  have hk' : (0:ℝ) ≤ (k:ℝ) := by exact_mod_cast hk
  constructor
  · rintro ⟨h1, h2⟩
    have h1' : (mu:ℝ) < (v:ℝ) := by exact_mod_cast h1
    have h2' : (k:ℝ) ^ 2 * (s2:ℝ) < ((v:ℝ) - (mu:ℝ)) ^ 2 := by exact_mod_cast h2
    have hks : ((k:ℝ) * Real.sqrt (s2:ℝ)) ^ 2 < ((v:ℝ) - (mu:ℝ)) ^ 2 := by
      rw [mul_pow, hSsq]; exact h2'
    have := lt_of_pow_lt_pow_left₀ 2 (by linarith) hks
    linarith
  · intro h
    have hks0 : (0:ℝ) ≤ (k:ℝ) * Real.sqrt (s2:ℝ) := mul_nonneg hk' hS0
    have h1' : (mu:ℝ) < (v:ℝ) := by linarith
    have hlt : (k:ℝ) * Real.sqrt (s2:ℝ) < (v:ℝ) - (mu:ℝ) := by linarith
    have hsq := pow_lt_pow_left₀ hlt hks0 (by norm_num : (2:ℕ) ≠ 0)
    rw [mul_pow, hSsq] at hsq
    exact ⟨by exact_mod_cast h1', by exact_mod_cast hsq⟩

lemma lowCond_iff {mu s2 k v : ℚ} (hs2 : 0 ≤ s2) (hk : 0 ≤ k) :
    (v < mu ∧ k ^ 2 * s2 < (v - mu) ^ 2) ↔
      (v : ℝ) < (mu : ℝ) - (k : ℝ) * Real.sqrt ((s2 : ℝ)) := by
  have hS0 : (0:ℝ) ≤ Real.sqrt (s2 : ℝ) := Real.sqrt_nonneg _
  have hSsq : Real.sqrt ((s2 : ℝ)) ^ 2 = (s2 : ℝ) := Real.sq_sqrt (by exact_mod_cast hs2)
  have hk' : (0:ℝ) ≤ (k:ℝ) := by exact_mod_cast hk
  constructor
  · rintro ⟨h1, h2⟩
    have h1' : (v:ℝ) < (mu:ℝ) := by exact_mod_cast h1
    have h2' : (k:ℝ) ^ 2 * (s2:ℝ) < ((v:ℝ) - (mu:ℝ)) ^ 2 := by exact_mod_cast h2
    have hks : ((k:ℝ) * Real.sqrt (s2:ℝ)) ^ 2 < ((mu:ℝ) - (v:ℝ)) ^ 2 := by
      rw [mul_pow, hSsq]; nlinarith [h2']
    have := lt_of_pow_lt_pow_left₀ 2 (by linarith) hks
    linarith
  · intro h
    have hks0 : (0:ℝ) ≤ (k:ℝ) * Real.sqrt (s2:ℝ) := mul_nonneg hk' hS0
    have h1' : (v:ℝ) < (mu:ℝ) := by linarith
    have hlt : (k:ℝ) * Real.sqrt (s2:ℝ) < (mu:ℝ) - (v:ℝ) := by linarith
    have hsq := pow_lt_pow_left₀ hlt hks0 (by norm_num : (2:ℕ) ≠ 0)
    rw [mul_pow, hSsq] at hsq
    have hsq' : (k:ℝ) ^ 2 * (s2:ℝ) < ((v:ℝ) - (mu:ℝ)) ^ 2 := by nlinarith [hsq]
    exact ⟨by exact_mod_cast h1', by exact_mod_cast hsq'⟩

/-! ### Claims about the outlier detector -/

/-- C1: for every monthly period whose sample standard deviation is
undefined (fewer than 2 observations: `STDDEV_SAMP` NULL) or equal to zero
(`stddevSampSq = some 0`, hence `sigma = √0 = 0`), the outlier labelling of
`get_daily_load_outliers` classifies every day of that period as `none`,
for every threshold `k`. -/
theorem outlier_zero_sigma_all_none (rows : List DayRow) (k : ℚ) (r : DayRow)
    (hr : r ∈ rows)
    (h : stddevSampSq (monthValues rows r.month) = Option.none ∨
         stddevSampSq (monthValues rows r.month) = Option.some 0) :
    labelRow rows k r = OutlierGroup.none := by
  have hv : r.value ∈ monthValues rows r.month := mem_monthValues hr
  set l := monthValues rows r.month with hl
  rcases h with h | h
  · simp [labelRow, labelValue, ← hl, h]
  · have hlen : 2 ≤ l.length := by
      by_contra hc
      simp [stddevSampSq, hc] at h
    have hzero : devSq l / ((l.length : ℚ) - 1) = 0 := by
      simpa [stddevSampSq, hlen] using h
    have hdev : devSq l = 0 := by
      rcases div_eq_zero_iff.mp hzero with h0 | h0
      · exact h0
      · exfalso
        have h2 : (2:ℚ) ≤ (l.length : ℚ) := by exact_mod_cast hlen
        have : ((l.length : ℚ) - 1) = 0 := h0
        linarith
    have hvc : r.value = mean l := sum_sq_eq_zero hdev r.value hv
    rw [labelRow, ← hl, labelValue_some h, if_neg, if_neg]
    · rintro ⟨h1, -⟩
      rw [hvc] at h1
      exact lt_irrefl _ h1
    · rintro ⟨h1, -⟩
      rw [hvc] at h1
      exact lt_irrefl _ h1

/-- C1 witness: a constant July series (month key 0) has sample standard
deviation 0 and its first day is labelled `none`. -/
theorem outlier_zero_sigma_all_none_witness :
    labelRow [⟨0, 1, 5⟩, ⟨0, 2, 5⟩, ⟨0, 3, 5⟩] 3 ⟨0, 1, 5⟩ = OutlierGroup.none := by
  apply outlier_zero_sigma_all_none
  · simp
  · right
    norm_num [monthValues, stddevSampSq, devSq, mean]

lemma labelValue_spec (l : List ℚ) (k v : ℚ)
    (hlen : 2 ≤ l.length) (hk : 0 ≤ k) :
    stddevSampSq l = some ((l.map fun x => (x - mean l) ^ 2).sum / ((l.length : ℚ) - 1)) ∧
    (labelValue l k v = OutlierGroup.high ↔ sqlHighCond l k v) ∧
    (labelValue l k v = OutlierGroup.low ↔ sqlLowCond l k v) ∧
    (labelValue l k v = OutlierGroup.none ↔ ¬sqlHighCond l k v ∧ ¬sqlLowCond l k v) := by
  have h2 : (2:ℚ) ≤ (l.length : ℚ) := by exact_mod_cast hlen
  have hs2 : 0 ≤ devSq l / ((l.length : ℚ) - 1) :=
    div_nonneg (devSq_nonneg l) (by linarith)
  have hstd : stddevSampSq l = some (devSq l / ((l.length : ℚ) - 1)) := by
    simp [stddevSampSq, hlen]
  have hH := @highCond_iff (mean l) (devSq l / ((l.length : ℚ) - 1)) k v hs2 hk
  have hL := @lowCond_iff (mean l) (devSq l / ((l.length : ℚ) - 1)) k v hs2 hk
  have hHdef : sqlHighCond l k v ↔
      (mean l < v ∧ k ^ 2 * (devSq l / ((l.length : ℚ) - 1)) < (v - mean l) ^ 2) := by
    unfold sqlHighCond
    exact hH.symm
  have hLdef : sqlLowCond l k v ↔
      (v < mean l ∧ k ^ 2 * (devSq l / ((l.length : ℚ) - 1)) < (v - mean l) ^ 2) := by
    unfold sqlLowCond
    exact hL.symm
  rw [labelValue_some hstd]
  refine ⟨by simpa [devSq] using hstd, ?_, ?_, ?_⟩
  · by_cases hc1 : mean l < v ∧ k ^ 2 * (devSq l / ((l.length : ℚ) - 1)) < (v - mean l) ^ 2
    · rw [if_pos hc1]
      exact iff_of_true rfl (hHdef.mpr hc1)
    · rw [if_neg hc1]
      by_cases hc2 : v < mean l ∧ k ^ 2 * (devSq l / ((l.length : ℚ) - 1)) < (v - mean l) ^ 2
      · rw [if_pos hc2]
        exact iff_of_false (by simp) (fun hs => hc1 (hHdef.mp hs))
      · rw [if_neg hc2]
        exact iff_of_false (by simp) (fun hs => hc1 (hHdef.mp hs))
  · by_cases hc1 : mean l < v ∧ k ^ 2 * (devSq l / ((l.length : ℚ) - 1)) < (v - mean l) ^ 2
    · rw [if_pos hc1]
      refine iff_of_false (by simp) (fun hs => ?_)
      have hc2 := hLdef.mp hs
      exact absurd hc1.1 (not_lt.mpr (le_of_lt hc2.1))
    · rw [if_neg hc1]
      by_cases hc2 : v < mean l ∧ k ^ 2 * (devSq l / ((l.length : ℚ) - 1)) < (v - mean l) ^ 2
      · rw [if_pos hc2]
        exact iff_of_true rfl (hLdef.mpr hc2)
      · rw [if_neg hc2]
        exact iff_of_false (by simp) (fun hs => hc2 (hLdef.mp hs))
  · by_cases hc1 : mean l < v ∧ k ^ 2 * (devSq l / ((l.length : ℚ) - 1)) < (v - mean l) ^ 2
    · rw [if_pos hc1]
      exact iff_of_false (by simp) (fun hs => hs.1 (hHdef.mpr hc1))
    · rw [if_neg hc1]
      by_cases hc2 : v < mean l ∧ k ^ 2 * (devSq l / ((l.length : ℚ) - 1)) < (v - mean l) ^ 2
      · rw [if_pos hc2]
        exact iff_of_false (by simp) (fun hs => hs.2 (hLdef.mpr hc2))
      · rw [if_neg hc2]
        exact iff_of_true rfl ⟨fun hs => hc1 (hHdef.mp hs), fun hs => hc2 (hLdef.mp hs)⟩

/-! ### Floor and ceiling of nonnegative rationals -/

lemma floorNat_le (a d : ℕ) (hd : 0 < d) : ((a / d : ℕ) : ℚ) ≤ (a : ℚ) / (d : ℚ) := by
  rw [le_div_iff₀ (by exact_mod_cast hd)]
  calc ((a / d : ℕ) : ℚ) * (d : ℚ) = ((a / d * d : ℕ) : ℚ) := by push_cast; ring
    _ ≤ (a : ℚ) := by exact_mod_cast Nat.div_mul_le_self a d

lemma lt_floorNat_add_one (a d : ℕ) (hd : 0 < d) :
    (a : ℚ) / (d : ℚ) < ((a / d : ℕ) : ℚ) + 1 := by
  rw [div_lt_iff₀ (by exact_mod_cast hd)]
  have hlt : a < (a / d + 1) * d := by
    have h3 := Nat.div_add_mod a d
    have h2 := Nat.mod_lt a hd
    calc a = d * (a / d) + a % d := h3.symm
      _ < d * (a / d) + d := by omega
      _ = (a / d + 1) * d := by ring
  calc (a : ℚ) < (((a / d + 1) * d : ℕ) : ℚ) := by exact_mod_cast hlt
    _ = (((a / d : ℕ) : ℚ) + 1) * (d : ℚ) := by push_cast; ring

lemma ratFloorNat_cast (q : ℚ) (hq : 0 ≤ q) : (ratFloorNat q : ℤ) = ⌊q⌋ := by
  have hnum : 0 ≤ q.num := Rat.num_nonneg.mpr hq
  have hd : 0 < q.den := Rat.den_pos q
  have h1 : ((q.num.natAbs : ℚ)) = ((q.num : ℚ)) := by
    rw [Int.cast_natAbs, abs_of_nonneg hnum]
  have hq_eq : ((q.num.natAbs : ℚ)) / ((q.den : ℚ)) = q := by
    rw [h1, Rat.num_div_den]
  have k1 := floorNat_le q.num.natAbs q.den hd
  have k2 := lt_floorNat_add_one q.num.natAbs q.den hd
  rw [hq_eq] at k1 k2
  symm
  rw [Int.floor_eq_iff]
  constructor
  · show (((q.num.natAbs / q.den : ℕ) : ℤ) : ℚ) ≤ q
    exact_mod_cast k1
  · show q < (((q.num.natAbs / q.den : ℕ) : ℤ) : ℚ) + 1
    exact_mod_cast k2

lemma ratCeilNat_cast (q : ℚ) (hq : 0 ≤ q) : (ratCeilNat q : ℤ) = ⌈q⌉ := by
  by_cases hden : q.den = 1
  · have hint : ((q.num : ℚ)) = q := (Rat.den_eq_one_iff q).mp hden
    rw [ratCeilNat, if_pos hden, ratFloorNat_cast q hq, ← hint,
      Int.floor_intCast, Int.ceil_intCast]
  · rw [ratCeilNat, if_neg hden]
    have hfl := ratFloorNat_cast q hq
    have hne : q ≠ ((⌊q⌋ : ℤ) : ℚ) := by
      intro hcontra
      apply hden
      rw [hcontra]
      exact Rat.den_intCast ⌊q⌋
    have hflt : ((⌊q⌋ : ℤ) : ℚ) < q := lt_of_le_of_ne (Int.floor_le q) (Ne.symm hne)
    have hceil : ⌈q⌉ = ⌊q⌋ + 1 := by
      rw [Int.ceil_eq_iff]
      constructor
      · push_cast
        linarith
      · push_cast
        linarith [Int.lt_floor_add_one q]
    rw [hceil, ← hfl]
    push_cast
    ring

/-! ### Claim C5: percentile interpolation -/

/-- C5: `percentile_cont` interpolates linearly between order statistics:
for sorted values and fractional rank `r = f * (n - 1)` the cutoff is
`v[⌊r⌋] + (r - ⌊r⌋) * (v[⌈r⌉] - v[⌊r⌋])`; on `[1, 2, 3, 4]` with `p = 50`
(`f = 50/100`) the result is `2.5`; and the median peak load of the
extreme-heat analysis is the same interpolation applied at `p = 50`
(`percentile_cont(0.5)`) to the qualifying days' peak loads. -/
theorem percentile_linear_interpolation :
    (∀ (f : ℚ) (l : List ℚ), 0 ≤ f → f ≤ 1 → l ≠ [] → l.Sorted (· ≤ ·) →
      percentileCont f l =
        l.getD (⌊f * ((l.length : ℚ) - 1)⌋).toNat 0 +
          (f * ((l.length : ℚ) - 1) - ((⌊f * ((l.length : ℚ) - 1)⌋ : ℤ) : ℚ)) *
            (l.getD (⌈f * ((l.length : ℚ) - 1)⌉).toNat 0 -
              l.getD (⌊f * ((l.length : ℚ) - 1)⌋).toNat 0)) ∧
    percentileCont (50 / 100) [1, 2, 3, 4] = 5 / 2 ∧
    ∀ (rows : List ZoneDay) (p : ℚ),
      medianPeakLoad rows p =
        percentileCont (1 / 2)
          ((rows.filter fun r => hotCutoff rows p ≤ r.tempMaxF).map ZoneDay.peakLoadMw) := by
  refine ⟨?_, ?_, fun rows p => rfl⟩
  case refine_2 =>
    norm_num [percentileCont, List.insertionSort, List.orderedInsert, ratFloorNat, ratCeilNat]
  · intro f l hf0 hf1 hne hsort
    have hlen : 0 < l.length := List.length_pos.mpr hne
    have hlen1 : (1:ℚ) ≤ (l.length : ℚ) := by exact_mod_cast hlen
    simp only [percentileCont, List.Sorted.insertionSort_eq hsort]
    set r : ℚ := f * ((l.length : ℚ) - 1) with hr
    have hr0 : 0 ≤ r := mul_nonneg hf0 (by linarith)
    have hfl : (ratFloorNat r : ℤ) = ⌊r⌋ := ratFloorNat_cast r hr0
    have hcl : (ratCeilNat r : ℤ) = ⌈r⌉ := ratCeilNat_cast r hr0
    have hfl' : ⌊r⌋.toNat = ratFloorNat r := by rw [← hfl, Int.toNat_natCast]
    have hcl' : ⌈r⌉.toNat = ratCeilNat r := by rw [← hcl, Int.toNat_natCast]
    have hflq : ((ratFloorNat r : ℚ)) = ((⌊r⌋ : ℤ) : ℚ) := by exact_mod_cast hfl
    by_cases hEq : ratFloorNat r = ratCeilNat r
    · rw [if_pos hEq]
      have hic : ⌊r⌋ = ⌈r⌉ := by rw [← hfl, ← hcl, hEq]
      have hreq : ((⌊r⌋ : ℤ) : ℚ) = r := by
        have h1 := Int.floor_le r
        have h2 := Int.le_ceil r
        rw [← hic] at h2
        exact le_antisymm h1 h2
      rw [hfl', hcl', ← hEq, hreq]
      ring
    · rw [if_neg hEq, hfl', hcl', hflq]

/-- C5 witness: the interpolation theorem applied to the sorted values
`[1, 2, 3, 4]` at `f = 1/2`, together with the closed `2.5` instance. -/
theorem percentile_linear_interpolation_witness :
    (0 ≤ (1:ℚ)/2) ∧ ((1:ℚ)/2 ≤ 1) ∧ (([1, 2, 3, 4] : List ℚ) ≠ []) ∧
    (([1, 2, 3, 4] : List ℚ).Sorted (· ≤ ·)) ∧
    percentileCont (1/2) [1, 2, 3, 4] =
      ([1, 2, 3, 4] : List ℚ).getD (⌊(1:ℚ)/2 * (((([1, 2, 3, 4] : List ℚ).length) : ℚ) - 1)⌋).toNat 0 +
        ((1:ℚ)/2 * (((([1, 2, 3, 4] : List ℚ).length) : ℚ) - 1) -
            ((⌊(1:ℚ)/2 * (((([1, 2, 3, 4] : List ℚ).length) : ℚ) - 1)⌋ : ℤ) : ℚ)) *
          (([1, 2, 3, 4] : List ℚ).getD (⌈(1:ℚ)/2 * (((([1, 2, 3, 4] : List ℚ).length) : ℚ) - 1)⌉).toNat 0 -
            ([1, 2, 3, 4] : List ℚ).getD (⌊(1:ℚ)/2 * (((([1, 2, 3, 4] : List ℚ).length) : ℚ) - 1)⌋).toNat 0) :=
  ⟨by norm_num, by norm_num, by simp, by
    simp [List.sorted_cons]
    norm_num,
    percentile_linear_interpolation.1 (1/2) [1, 2, 3, 4] (by norm_num) (by norm_num)
      (by simp) (by simp [List.sorted_cons]; norm_num)⟩

/-! ### Claims about the forecast accuracy metrics -/

/-- C2: on a group of fully-present pairs, `mape_pct` is 100 times the mean
of `|actual − expected| / |actual|` over exactly the pairs with nonzero
actual (NULL when there are none), while those zero-actual pairs still
count in `n` and still enter the `mse` and `mae` averages. -/
theorem mape_excludes_zero_actuals (ps : List (ℚ × ℚ)) :
    (computeMetrics (ps.map fun q => ((some q.1 : Option ℚ), (some q.2 : Option ℚ)))).n =
      ps.length ∧
    ((ps.filter fun q => decide (q.1 ≠ 0)) ≠ [] →
      (computeMetrics (ps.map fun q => ((some q.1 : Option ℚ), (some q.2 : Option ℚ)))).mape_pct =
        some (100 * (((ps.filter fun q => decide (q.1 ≠ 0)).map fun q => |q.1 - q.2| / |q.1|).sum /
          (((ps.filter fun q => decide (q.1 ≠ 0)).length : ℕ) : ℚ)))) ∧
    ((ps.filter fun q => decide (q.1 ≠ 0)) = [] →
      (computeMetrics (ps.map fun q => ((some q.1 : Option ℚ), (some q.2 : Option ℚ)))).mape_pct =
        Option.none) ∧
    (ps ≠ [] →
      (computeMetrics (ps.map fun q => ((some q.1 : Option ℚ), (some q.2 : Option ℚ)))).mse =
          some ((ps.map fun q => (q.1 - q.2) ^ 2).sum / ((ps.length : ℕ) : ℚ)) ∧
      (computeMetrics (ps.map fun q => ((some q.1 : Option ℚ), (some q.2 : Option ℚ)))).mae =
          some ((ps.map fun q => |q.1 - q.2|).sum / ((ps.length : ℕ) : ℚ))) := by
  set pairs := ps.map fun q => ((some q.1 : Option ℚ), (some q.2 : Option ℚ)) with hpairs
  have hbp : pairs.filterMap presentPair = ps := filterMap_presentPair_map_some ps
  refine ⟨by simp [computeMetrics, hpairs], ?_, ?_, ?_⟩
  · intro hnz
    have hfm : (pairs.map mapeTerm).filterMap id =
        ((ps.filter fun q => decide (q.1 ≠ 0)).map fun q => |q.1 - q.2| / |q.1|) := by
      rw [filterMap_id_map, filterMap_mape, hbp]
    have hne : (pairs.map mapeTerm).filterMap id ≠ [] := by
      rw [hfm]
      simpa using hnz
    show (avgOpt (pairs.map mapeTerm)).map (fun m => 100 * m) = _
    rw [avgOpt_of_filterMap_ne_nil hne, hfm]
    simp
  · intro hnz
    have hfm : (pairs.map mapeTerm).filterMap id = [] := by
      rw [filterMap_id_map, filterMap_mape, hbp, hnz]
      rfl
    show (avgOpt (pairs.map mapeTerm)).map (fun m => 100 * m) = _
    rw [avgOpt_of_filterMap_nil hfm]
    rfl
  · intro hne
    have hfm1 : (pairs.map sqErrTerm).filterMap id = ps.map fun q => (q.1 - q.2) ^ 2 := by
      rw [filterMap_id_map, filterMap_sqErr, hbp]
    have hfm2 : (pairs.map absErrTerm).filterMap id = ps.map fun q => |q.1 - q.2| := by
      rw [filterMap_id_map, filterMap_absErr, hbp]
    constructor
    · show avgOpt (pairs.map sqErrTerm) = _
      rw [avgOpt_of_filterMap_ne_nil (by rw [hfm1]; simpa using hne), hfm1]
      simp
    · show avgOpt (pairs.map absErrTerm) = _
      rw [avgOpt_of_filterMap_ne_nil (by rw [hfm2]; simpa using hne), hfm2]
      simp

/-- C2 witness: the spec's own example `(actual, expected)` pairs
`(0, 3)` and `(10, 9)`: `n = 2`, `mape_pct = 10` (from the second pair
only), while `mse = 5` and `mae = 2` include both pairs. -/
theorem mape_excludes_zero_actuals_witness :
    (computeMetrics [((some 0 : Option ℚ), (some 3 : Option ℚ)), (some 10, some 9)]).n = 2 ∧
    (computeMetrics [((some 0 : Option ℚ), (some 3 : Option ℚ)), (some 10, some 9)]).mape_pct =
      some 10 ∧
    (computeMetrics [((some 0 : Option ℚ), (some 3 : Option ℚ)), (some 10, some 9)]).mse =
      some 5 ∧
    (computeMetrics [((some 0 : Option ℚ), (some 3 : Option ℚ)), (some 10, some 9)]).mae =
      some 2 := by
  have h := mape_excludes_zero_actuals [(0, 3), (10, 9)]
  have hmap : ([(0, 3), (10, 9)] : List (ℚ × ℚ)).map
      (fun q => ((some q.1 : Option ℚ), (some q.2 : Option ℚ))) =
      [(some 0, some 3), (some 10, some 9)] := rfl
  rw [hmap] at h
  obtain ⟨hn, hmape, -, hmm⟩ := h
  have hflt : (([(0, 3), (10, 9)] : List (ℚ × ℚ)).filter fun q => decide (q.1 ≠ 0)) =
      [(10, 9)] := by
    norm_num [List.filter_cons]
  refine ⟨hn, ?_, ?_, ?_⟩
  · rw [hmape (by rw [hflt]; simp), hflt]
    norm_num
  · rw [(hmm (by simp)).1]
    norm_num
  · rw [(hmm (by simp)).2]
    norm_num

/-- C3: when every present actual of the group equals one constant `c`
(so the total sum of squares is zero, e.g. "actual = [5,5,5]"), `r2` is
NULL — not 0, 1 or any other value — since `NULLIF(SS_tot, 0)` turns the
zero divisor into NULL before the division. -/
theorem r2_undefined_on_constant_actual (pairs : List (Option ℚ × Option ℚ)) (c : ℚ)
    (hc : ∀ p ∈ pairs, ∀ y : ℚ, p.1 = some y → y = c) :
    (computeMetrics pairs).r2 = Option.none := by
  show r2Calc pairs = Option.none
  unfold r2Calc
  rcases hyb : yBar pairs with _ | yb
  · have hnil : (pairs.map (ssTotTerm Option.none)).filterMap id = [] := by
      rw [filterMap_id_map, filterMap_ssTot_none]
    rw [sumOpt_of_filterMap_nil hnil]
    rcases sumOpt (pairs.map sqErrTerm) with _ | a <;> rfl
  · have hys : (pairs.map Prod.fst).filterMap id = pairs.filterMap Prod.fst :=
      filterMap_id_map Prod.fst pairs
    have hysne : pairs.filterMap Prod.fst ≠ [] := by
      intro hcon
      rw [show yBar pairs = avgOpt (pairs.map Prod.fst) from rfl,
        avgOpt_of_filterMap_nil (hys.trans hcon)] at hyb
      cases hyb
    have hyseq : ∀ y ∈ pairs.filterMap Prod.fst, y = c := by
      intro y hy
      obtain ⟨p, hp, hpy⟩ := List.mem_filterMap.mp hy
      exact hc p hp y hpy
    have hybc : yb = c := by
      rw [show yBar pairs = avgOpt (pairs.map Prod.fst) from rfl,
        avgOpt_of_filterMap_ne_nil (by rw [hys]; exact hysne), hys] at hyb
      have hlen : ((pairs.filterMap Prod.fst).length : ℚ) ≠ 0 := by
        have := List.length_pos.mpr hysne
        exact_mod_cast Nat.pos_iff_ne_zero.mp this
      have := Option.some.inj hyb
      rw [sum_all_eq hyseq, mul_div_assoc, div_self hlen, mul_one] at this
      exact this.symm
    have htot : (pairs.map (ssTotTerm (some yb))).filterMap id =
        (pairs.filterMap Prod.fst).map fun y => (y - c) ^ 2 := by
      rw [hybc, filterMap_id_map, filterMap_ssTot]
    have hsum : sumOpt (pairs.map (ssTotTerm (some yb))) = some 0 := by
      rw [sumOpt_of_filterMap_ne_nil (by rw [htot]; simpa using hysne), htot]
      have : ∀ x ∈ (pairs.filterMap Prod.fst).map fun y => (y - c) ^ 2, x = 0 := by
        intro x hx
        obtain ⟨y, hy, rfl⟩ := List.mem_map.mp hx
        rw [hyseq y hy]
        ring
      rw [sum_all_eq this, zero_mul]
    rw [hsum]
    have : nullif (some 0) 0 = Option.none := by simp [nullif]
    rw [this]
    rcases sumOpt (pairs.map sqErrTerm) with _ | a <;> rfl

/-- C3 witness: the spec's example — constant actual `[5, 5, 5]` against
expected `[4, 5, 6]` — yields a NULL `r2`. -/
theorem r2_undefined_on_constant_actual_witness :
    (computeMetrics
      [((some 5 : Option ℚ), (some 4 : Option ℚ)), (some 5, some 5), (some 5, some 6)]).r2 =
      Option.none := by
  apply r2_undefined_on_constant_actual _ 5
  intro p hp y hy
  fin_cases hp <;> exact (Option.some.inj hy).symm

/-- C4 counterexample: for the group
`[(actual 1, expected 2), (actual 5, expected NULL)]` the query reports
`n = 2` although only one pair has both values present, and the actual-mean
feeding `SS_tot` is `3`, which includes the expected-missing actual `5` —
so the statistics are not restricted to the both-present pairs. -/
theorem metrics_not_restricted_counterexample :
    (computeMetrics [((some 1 : Option ℚ), (some 2 : Option ℚ)), (some 5, Option.none)]).n = 2 ∧
    ([((some 1 : Option ℚ), (some 2 : Option ℚ)), (some 5, Option.none)].filterMap
        presentPair).length = 1 ∧
    (computeMetrics [((some 1 : Option ℚ), (some 2 : Option ℚ)), (some 5, Option.none)]).n ≠
      ([((some 1 : Option ℚ), (some 2 : Option ℚ)), (some 5, Option.none)].filterMap
        presentPair).length ∧
    yBar [((some 1 : Option ℚ), (some 2 : Option ℚ)), (some 5, Option.none)] = some 3 := by
  refine ⟨rfl, rfl, by decide, ?_⟩
  norm_num [yBar, avgOpt, List.filterMap_cons]

/-- C4 amended: `n = COUNT(*)` counts every pair of the group, pairs with a
missing value included; `mse` and `mae` average over exactly the
both-present pairs (NULL when there are none); `mape_pct` averages over the
both-present pairs with nonzero actual; and the actual-mean used for
`SS_tot` averages over every pair whose actual is present, even those
missing the expected value. -/
theorem metrics_null_handling (pairs : List (Option ℚ × Option ℚ)) :
    (computeMetrics pairs).n = pairs.length ∧
    (pairs.filterMap presentPair ≠ [] →
      (computeMetrics pairs).mse =
        some (((pairs.filterMap presentPair).map fun q => (q.1 - q.2) ^ 2).sum /
          (((pairs.filterMap presentPair).length : ℕ) : ℚ)) ∧
      (computeMetrics pairs).mae =
        some (((pairs.filterMap presentPair).map fun q => |q.1 - q.2|).sum /
          (((pairs.filterMap presentPair).length : ℕ) : ℚ))) ∧
    (pairs.filterMap presentPair = [] →
      (computeMetrics pairs).mse = Option.none ∧
      (computeMetrics pairs).mae = Option.none) ∧
    (((pairs.filterMap presentPair).filter fun q => decide (q.1 ≠ 0)) ≠ [] →
      (computeMetrics pairs).mape_pct =
        some (100 * ((((pairs.filterMap presentPair).filter fun q => decide (q.1 ≠ 0)).map
            fun q => |q.1 - q.2| / |q.1|).sum /
          ((((pairs.filterMap presentPair).filter fun q => decide (q.1 ≠ 0)).length : ℕ) : ℚ)))) ∧
    (pairs.filterMap Prod.fst ≠ [] →
      yBar pairs =
        some ((pairs.filterMap Prod.fst).sum / (((pairs.filterMap Prod.fst).length : ℕ) : ℚ))) := by
  refine ⟨by simp [computeMetrics], ?_, ?_, ?_, ?_⟩
  · intro hne
    have hfm1 : (pairs.map sqErrTerm).filterMap id =
        (pairs.filterMap presentPair).map fun q => (q.1 - q.2) ^ 2 := by
      rw [filterMap_id_map, filterMap_sqErr]
    have hfm2 : (pairs.map absErrTerm).filterMap id =
        (pairs.filterMap presentPair).map fun q => |q.1 - q.2| := by
      rw [filterMap_id_map, filterMap_absErr]
    constructor
    · show avgOpt (pairs.map sqErrTerm) = _
      rw [avgOpt_of_filterMap_ne_nil (by rw [hfm1]; simpa using hne), hfm1]
      simp
    · show avgOpt (pairs.map absErrTerm) = _
      rw [avgOpt_of_filterMap_ne_nil (by rw [hfm2]; simpa using hne), hfm2]
      simp
  · intro hnil
    constructor
    · show avgOpt (pairs.map sqErrTerm) = _
      exact avgOpt_of_filterMap_nil (by rw [filterMap_id_map, filterMap_sqErr, hnil]; rfl)
    · show avgOpt (pairs.map absErrTerm) = _
      exact avgOpt_of_filterMap_nil (by rw [filterMap_id_map, filterMap_absErr, hnil]; rfl)
  · intro hne
    have hfm : (pairs.map mapeTerm).filterMap id =
        ((pairs.filterMap presentPair).filter fun q => decide (q.1 ≠ 0)).map
          fun q => |q.1 - q.2| / |q.1| := by
      rw [filterMap_id_map, filterMap_mape]
    show (avgOpt (pairs.map mapeTerm)).map (fun m => 100 * m) = _
    rw [avgOpt_of_filterMap_ne_nil (by rw [hfm]; simpa using hne), hfm]
    simp
  · intro hne
    show avgOpt (pairs.map Prod.fst) = _
    rw [avgOpt_of_filterMap_ne_nil (by rw [filterMap_id_map]; exact hne), filterMap_id_map]

/-- C4 amended witness: the counterexample group
`[(1, 2), (5, NULL)]` — `n = 2`, `mse = mae = 1` from the single
both-present pair, `mape_pct = 100` from that same pair, and the
actual-mean is `3 = (1 + 5)/2`. -/
theorem metrics_null_handling_witness :
    (computeMetrics [((some 1 : Option ℚ), (some 2 : Option ℚ)), (some 5, Option.none)]).n = 2 ∧
    (computeMetrics [((some 1 : Option ℚ), (some 2 : Option ℚ)), (some 5, Option.none)]).mse =
      some 1 ∧
    (computeMetrics [((some 1 : Option ℚ), (some 2 : Option ℚ)), (some 5, Option.none)]).mae =
      some 1 ∧
    (computeMetrics
        [((some 1 : Option ℚ), (some 2 : Option ℚ)), (some 5, Option.none)]).mape_pct =
      some 100 ∧
    yBar [((some 1 : Option ℚ), (some 2 : Option ℚ)), (some 5, Option.none)] = some 3 := by
  have h := metrics_null_handling [((some 1 : Option ℚ), (some 2 : Option ℚ)),
    (some 5, Option.none)]
  obtain ⟨hn, hmm, -, hmape, hyb⟩ := h
  have hbp : ([((some 1 : Option ℚ), (some 2 : Option ℚ)),
      (some 5, Option.none)].filterMap presentPair) = [(1, 2)] := rfl
  refine ⟨hn, ?_, ?_, ?_, ?_⟩
  · rw [(hmm (by rw [hbp]; simp)).1, hbp]
    norm_num
  · rw [(hmm (by rw [hbp]; simp)).2, hbp]
    norm_num
  · rw [hmape (by rw [hbp]; norm_num [List.filter_cons]), hbp]
    norm_num [List.filter_cons]
  · rw [hyb (by simp [List.filterMap_cons])]
    norm_num [List.filterMap_cons]

/-! ### Claims about the response pipeline -/

lemma validateResponse_none_of_mem {rows : List MetricsRow} {r : MetricsRow}
    (hr : r ∈ rows) (hv : validateMetricsRow r = Option.none) :
    validateResponse rows = Option.none := by
  induction rows with
  | nil => cases hr
  | cons a t ih =>
    rcases List.mem_cons.mp hr with rfl | hmem
    · show (match validateMetricsRow r, validateResponse t with
        | some v, some vs => some (v :: vs)
        | _, _ => Option.none) = Option.none
      rw [hv]
    · show (match validateMetricsRow a, validateResponse t with
        | some v, some vs => some (v :: vs)
        | _, _ => Option.none) = Option.none
      rw [ih hmem]
      rcases validateMetricsRow a with _ | v <;> rfl

lemma validateResponse_bounds :
    ∀ {rows : List MetricsRow} {out : List ForecastMetricsOut},
      validateResponse rows = some out → ∀ v ∈ out, -1 ≤ v.r2 ∧ v.r2 ≤ 1 := by
  intro rows
  induction rows with
  | nil =>
    intro out h v hv
    rw [show validateResponse [] = some [] from rfl] at h
    rw [← Option.some.inj h] at hv
    cases hv
  | cons a t ih =>
    intro out h v hv
    have hdef : validateResponse (a :: t) =
        (match validateMetricsRow a, validateResponse t with
          | some w, some ws => some (w :: ws)
          | _, _ => Option.none) := rfl
    rw [hdef] at h
    rcases hva : validateMetricsRow a with _ | w <;> rw [hva] at h
    · rcases validateResponse t with _ | ws <;> cases h
    · rcases hvt : validateResponse t with _ | ws <;> rw [hvt] at h
      · cases h
      · rw [← Option.some.inj h] at hv
        rcases List.mem_cons.mp hv with rfl | hmem
        · revert hva
          show (match a.mse, a.mae, a.mape_pct, a.r2 with
            | some x1, some x2, some x3, some x4 =>
                if -1 ≤ x4 ∧ x4 ≤ 1 then some ⟨a.n, x1, x2, x3, x4⟩ else Option.none
            | _, _, _, _ => Option.none) = some v → -1 ≤ v.r2 ∧ v.r2 ≤ 1
          rcases a.mse with _ | x1 <;> rcases a.mae with _ | x2 <;>
            rcases a.mape_pct with _ | x3 <;> rcases a.r2 with _ | x4 <;>
            intro hva <;> try cases hva
          dsimp only at hva
          split_ifs at hva with hb
          rw [← Option.some.inj hva]
          exact hb
        · exact ih hvt v hmem

/-- C8: when a region group has rows but not a single pair with both actual
and expected present, the request fails instead of returning data: the
group's SQL row carries NULL statistics (never zeros), so response
validation rejects it and the endpoint returns nothing. -/
theorem insufficient_data_fails (rows : List PairRow) (g : String)
    (hg : g ∈ regionsOf rows)
    (h0 : (pairsOf rows g).filterMap presentPair = []) :
    forecastEndpoint rows = Option.none := by
  have hmse : (computeMetrics (pairsOf rows g)).mse = Option.none := by
    show avgOpt ((pairsOf rows g).map sqErrTerm) = Option.none
    apply avgOpt_of_filterMap_nil
    rw [filterMap_id_map, filterMap_sqErr, h0]
    rfl
  have hrow : computeMetrics (pairsOf rows g) ∈ (forecastQuery rows).map Prod.snd := by
    simp only [forecastQuery, List.map_map]
    exact List.mem_map.mpr ⟨g, hg, rfl⟩
  have hval : validateMetricsRow (computeMetrics (pairsOf rows g)) = Option.none := by
    unfold validateMetricsRow
    rw [hmse]
  exact validateResponse_none_of_mem hrow hval

/-- C8 witness: a single `coast` row whose expected value is NULL — the
group exists, has no both-present pair, and the endpoint returns no data. -/
theorem insufficient_data_fails_witness :
    forecastEndpoint [⟨"coast", some 1, Option.none⟩] = Option.none := by
  apply insufficient_data_fails _ "coast"
  · simp [regionsOf]
  · rfl

/-- C10: every `ForecastMetrics` row actually returned by the endpoint has
all statistics present (by the type of a validated row) and `r2` within
`[-1, 1]` — the response model enforces the bound; yet the R² formula can
produce a value below −1 (here `−441`), and such a row is rejected by
validation, so it can never appear in returned data. -/
theorem returned_r2_bounded :
    (∀ (rows : List PairRow) (out : List ForecastMetricsOut),
        forecastEndpoint rows = some out → ∀ v ∈ out, -1 ≤ v.r2 ∧ v.r2 ≤ 1) ∧
    (computeMetrics [((some 0 : Option ℚ), (some 10 : Option ℚ)), (some 1, some (-10))]).r2 =
      some (-441) ∧
    validateMetricsRow
        (computeMetrics [((some 0 : Option ℚ), (some 10 : Option ℚ)), (some 1, some (-10))]) =
      Option.none := by
  refine ⟨fun rows out h => validateResponse_bounds h, ?_, ?_⟩
  · norm_num [computeMetrics, r2Calc, sumOpt, sqErrTerm, ssTotTerm, yBar, avgOpt, sqlSub,
      nullif, List.filterMap_cons]
  · norm_num [validateMetricsRow, computeMetrics, r2Calc, sumOpt, sqErrTerm, absErrTerm,
      mapeTerm, ssTotTerm, yBar, avgOpt, sqlSub, nullif, List.filterMap_cons]

/-- C10 witness: a two-row `coast` group that validates — the endpoint
returns one row, whose `r2 = 1` lies inside the enforced bounds. -/
theorem returned_r2_bounded_witness :
    forecastEndpoint [⟨"coast", some 1, some 1⟩, ⟨"coast", some 2, some 2⟩] =
      some [⟨2, 0, 0, 0, 1⟩] ∧
    (∀ v ∈ [(⟨2, 0, 0, 0, 1⟩ : ForecastMetricsOut)], -1 ≤ v.r2 ∧ v.r2 ≤ 1) := by
  have he : forecastEndpoint [⟨"coast", some 1, some 1⟩, ⟨"coast", some 2, some 2⟩] =
      some [⟨2, 0, 0, 0, 1⟩] := by
    norm_num [forecastEndpoint, forecastQuery, regionsOf, pairsOf, validateResponse,
      validateMetricsRow, computeMetrics, avgOpt, sqErrTerm, absErrTerm, mapeTerm, sqlSub,
      r2Calc, sumOpt, ssTotTerm, yBar, nullif, List.dedup, List.filterMap_cons]
  exact ⟨he, returned_r2_bounded.1 _ _ he⟩

/-! ### Claim about the percentile parameter range -/

/-- C9 counterexample: `p = 25` lies inside `[0, 100]`, yet the
extreme-heat-analysis endpoint rejects it (its declared bound is
`ge=50, le=100`), so the engine does not accept every `p ∈ [0, 100]`. -/
theorem percentile_range_counterexample :
    ((0:ℚ) ≤ 25 ∧ (25:ℚ) ≤ 100) ∧ extremeHeatPercentileAccepted 25 = false := by
  refine ⟨by norm_num, ?_⟩
  simp only [extremeHeatPercentileAccepted]
  norm_num

/-- C9 amended: the `peak-load-extreme-heat` endpoint accepts exactly the
percentiles in `[0, 100]`, but the extreme-heat-analysis endpoint accepts
exactly `[50, 100]`, rejecting every `p ∈ [0, 50)` although it lies inside
`[0, 100]`. -/
theorem percentile_range_amended (p : ℚ) :
    (peakLoadThresholdAccepted p = true ↔ 0 ≤ p ∧ p ≤ 100) ∧
    (extremeHeatPercentileAccepted p = true ↔ 50 ≤ p ∧ p ≤ 100) := by
  constructor <;> simp [peakLoadThresholdAccepted, extremeHeatPercentileAccepted]

/-! ### Claim about streak detection -/

/-- C6: a missing calendar day breaks a streak — on days `1, 2, 4` (all
satisfying the predicate) the detector never emits a streak of more than
two days, and with `min_length = 1` it emits exactly the two runs
`[1, 2]` and `[4, 4]`: day 4 starts a new streak because day 3 is absent. -/
theorem gap_breaks_streak (pred : ℚ → Bool) (v1 v2 v3 : ℚ)
    (h1 : pred v1 = true) (h2 : pred v2 = true) (h3 : pred v3 = true) :
    (∀ minLen : ℕ, ∀ s ∈ detectStreaks [(1, v1), (2, v2), (4, v3)] pred minLen, s.days ≤ 2) ∧
    detectStreaks [(1, v1), (2, v2), (4, v3)] pred 1 =
      [⟨1, 2, 2, max v1 v2⟩, ⟨4, 4, 1, v3⟩] := by
  have hrun : ∀ minLen : ℕ, detectStreaks [(1, v1), (2, v2), (4, v3)] pred minLen =
      closeRun minLen ⟨1, 2, 2, max v1 v2⟩ ++ closeRun minLen ⟨4, 4, 1, v3⟩ := by
    intro minLen
    norm_num [detectStreaks, scanStreaks, h1, h2, h3, closeOpt]
  constructor
  · intro minLen s hs
    rw [hrun minLen] at hs
    rcases List.mem_append.mp hs with h | h
    · by_cases hm : minLen ≤ 2
      · simp [closeRun, hm] at h
        rw [h]
      · simp [closeRun, hm] at h
    · by_cases hm : minLen ≤ 1
      · simp [closeRun, hm] at h
        rw [h]
        norm_num
      · simp [closeRun, hm] at h
  · rw [hrun 1]
    norm_num [closeRun]

/-- C6 witness: the spec's gap example with the always-true predicate. -/
theorem gap_breaks_streak_witness :
    (∀ minLen : ℕ, ∀ s ∈ detectStreaks [(1, 100), (2, 101), (4, 102)]
        (fun _ => true) minLen, s.days ≤ 2) ∧
    detectStreaks [(1, 100), (2, 101), (4, 102)] (fun _ => true) 1 =
      [⟨1, 2, 2, max 100 101⟩, ⟨4, 4, 1, 102⟩] :=
  gap_breaks_streak (fun _ => true) 100 101 102 rfl rfl rfl

/-- C7: for each month group (the days sharing a `date_trunc('month', ...)`
key) with at least two days and a nonnegative threshold `k`, the query's
statistics over that month's daily values are the mean and the
Bessel-corrected sample variance (denominator `n − 1`, NULL when `n < 2`),
and a day of the month is labelled `high` exactly when its value exceeds
`μ + k·σ` strictly, `low` exactly when it is below `μ − k·σ` strictly, and
`none` otherwise — σ being the real square root of the sample variance, as
computed by `STDDEV_SAMP`. -/
theorem outlier_classification_spec (rows : List DayRow) (k : ℚ) (r : DayRow)
    (hr : r ∈ rows) (hlen : 2 ≤ (monthValues rows r.month).length) (hk : 0 ≤ k) :
    stddevSampSq (monthValues rows r.month) =
      some (((monthValues rows r.month).map
          fun x => (x - mean (monthValues rows r.month)) ^ 2).sum /
        (((monthValues rows r.month).length : ℚ) - 1)) ∧
    (labelRow rows k r = OutlierGroup.high ↔ sqlHighCond (monthValues rows r.month) k r.value) ∧
    (labelRow rows k r = OutlierGroup.low ↔ sqlLowCond (monthValues rows r.month) k r.value) ∧
    (labelRow rows k r = OutlierGroup.none ↔
      ¬sqlHighCond (monthValues rows r.month) k r.value ∧
        ¬sqlLowCond (monthValues rows r.month) k r.value) :=
  labelValue_spec (monthValues rows r.month) k r.value hlen hk

/-- C7 witness: a single two-day month (month key 0, values 1 and 5) with
`k = 1`, classifying the day of value 5. -/
theorem outlier_classification_spec_witness :
    stddevSampSq (monthValues [⟨0, 1, 1⟩, ⟨0, 2, 5⟩] 0) =
      some (((monthValues [⟨0, 1, 1⟩, ⟨0, 2, 5⟩] 0).map
          fun x => (x - mean (monthValues [⟨0, 1, 1⟩, ⟨0, 2, 5⟩] 0)) ^ 2).sum /
        (((monthValues [⟨0, 1, 1⟩, ⟨0, 2, 5⟩] 0).length : ℚ) - 1)) ∧
    (labelRow [⟨0, 1, 1⟩, ⟨0, 2, 5⟩] 1 ⟨0, 2, 5⟩ = OutlierGroup.high ↔
      sqlHighCond (monthValues [⟨0, 1, 1⟩, ⟨0, 2, 5⟩] 0) 1 5) ∧
    (labelRow [⟨0, 1, 1⟩, ⟨0, 2, 5⟩] 1 ⟨0, 2, 5⟩ = OutlierGroup.low ↔
      sqlLowCond (monthValues [⟨0, 1, 1⟩, ⟨0, 2, 5⟩] 0) 1 5) ∧
    (labelRow [⟨0, 1, 1⟩, ⟨0, 2, 5⟩] 1 ⟨0, 2, 5⟩ = OutlierGroup.none ↔
      ¬sqlHighCond (monthValues [⟨0, 1, 1⟩, ⟨0, 2, 5⟩] 0) 1 5 ∧
        ¬sqlLowCond (monthValues [⟨0, 1, 1⟩, ⟨0, 2, 5⟩] 0) 1 5) :=
  outlier_classification_spec [⟨0, 1, 1⟩, ⟨0, 2, 5⟩] 1 ⟨0, 2, 5⟩ (by simp)
    (by norm_num [monthValues]) (by norm_num)

end TexasEnergy
